import Mathlib

/-!
Verification of the platformed-mf message-format library (Rust).

The development shallowly embeds the library's three modules:

* `types.rs`  — the AST data model, `PluralSelector::parse`, and the
  `Parameters` binding set with its duplicate-key panic;
* `parser.rs` — the `nom`-combinator grammar, modelled as functions
  `List Char → Option (List Char × α)` (`None` models a `nom` error; all
  errors in the source are backtrackable, nothing uses `Failure`);
* `formatter.rs` — the recursive evaluator, with the external ICU
  number-formatting collaborators abstracted as explicit function
  parameters (spec section 6 treats them as an external service).

Recursive combinators (`many0`, the mutually recursive case-body grammar)
are given explicit fuel; the public entry point supplies `input.length + 1`
fuel, which is sufficient because every constituent parser consumes at
least one character on success and each recursion into a case body first
consumes a brace.
-/

/-- Rust `<i64 as FromStr>::from_str`: an optional sign followed by one or
more ASCII digits, rejecting values outside the i64 range. -/
def digitsToNat (ds : List Char) : Nat :=
  ds.foldl (fun a c => a * 10 + (c.toNat - 48)) 0

/-- Core of i64 parsing: sign handling plus all-digit check. -/
def parseSignedDigits (cs : List Char) : Option Int :=
  match cs with
  | [] => none
  | c :: ds =>
      if c = '+' then
        if ds ≠ [] ∧ ds.all Char.isDigit then some (Int.ofNat (digitsToNat ds)) else none
      else if c = '-' then
        if ds ≠ [] ∧ ds.all Char.isDigit then some (-(Int.ofNat (digitsToNat ds))) else none
      else if (c :: ds).all Char.isDigit then some (Int.ofNat (digitsToNat (c :: ds))) else none

/-- Rust `s.parse::<i64>()` modelled over `Int` with an explicit range check. -/
def parseI64 (s : String) : Option Int :=
  match parseSignedDigits s.data with
  | some n => if -(2 ^ 63) ≤ n ∧ n < 2 ^ 63 then some n else none
  | none => none

/-- types.rs: `PluralSelector`. `exact n` carries the Rust `i64` as `Int`. -/
inductive PluralSelector where
  | zero
  | one
  | two
  | few
  | many
  | other
  | exact (n : Int)
deriving DecidableEq, Repr

/-- types.rs: `PluralSelector::parse` — the six keywords, then `s.parse::<i64>()`,
then `None`. -/
def PluralSelector.parse (s : String) : Option PluralSelector :=
  if s = "zero" then some .zero
  else if s = "one" then some .one
  else if s = "two" then some .two
  else if s = "few" then some .few
  else if s = "many" then some .many
  else if s = "other" then some .other
  else
    match parseI64 s with
    | some n => some (.exact n)
    | none => none

/-- types.rs: `NumberFormatType`. -/
inductive NumberFormatType where
  | number
  | integer
  | percent
  | currency (code : String)
deriving DecidableEq, Repr

/-- types.rs: `MessageElement` (with `PluralExpression`/`SelectExpression`/
`NumberExpression` structs flattened into the constructors, and `Message`
represented as `List MessageElement`). -/
inductive MessageElement where
  | text (s : String)
  | parameter (name : String)
  | plural (parameter : String) (cases : List (PluralSelector × List MessageElement))
  | select (parameter : String) (cases : List (String × List MessageElement))
  | number (parameter : String) (format_type : NumberFormatType)

/-- types.rs: `Message` is a sequence of elements. -/
abbrev Message := List MessageElement

/-- types.rs: `ParameterValue` — the only two runtime value shapes. -/
inductive ParameterValue where
  | string (s : String)
  | number (n : Int)
deriving DecidableEq, Repr

/-- types.rs: `Parameters` — an ordered list of name/value pairs. -/
structure Parameters where
  pairs : List (String × ParameterValue)
deriving DecidableEq, Repr

/-- types.rs: `Parameters::get` — first pair whose key matches. -/
def Parameters.get (p : Parameters) (key : String) : Option ParameterValue :=
  (p.pairs.find? (fun kv => kv.1 = key)).map Prod.snd

/-- types.rs: the duplicate-key scan inside `Parameters::from_slice`
(nested loops comparing each key with every later key). -/
def hasDuplicateKey : List (String × ParameterValue) → Bool
  | [] => false
  | (k, _) :: rest => rest.any (fun kv => kv.1 = k) || hasDuplicateKey rest

/-- types.rs: `Parameters::from_slice`. The Rust function panics on a
duplicate key; the panic (process abort, no value returned) is modelled as
`none`, while `some` is a normally constructed binding set. -/
def Parameters.from_slice (pairs : List (String × ParameterValue)) : Option Parameters :=
  if hasDuplicateKey pairs then none else some ⟨pairs⟩

/-! ## Parser combinators (the `nom` subset used by parser.rs) -/

/-- A parser over a character list: `none` is a (backtrackable) `nom`
error, `some (rest, v)` is `Ok((rest, v))`. -/
abbrev Parser (α : Type) : Type := List Char → Option (List Char × α)

/-- nom `char(c)`. -/
def pchar (c : Char) : Parser Char := fun input =>
  match input with
  | [] => none
  | d :: rest => if d = c then some (rest, c) else none

/-- Core of nom `tag`: match a literal character sequence. -/
def tagCore : List Char → List Char → Option (List Char)
  | [], rest => some rest
  | _ :: _, [] => none
  | c :: cs, d :: ds => if d = c then tagCore cs ds else none

/-- nom `tag(s)`. -/
def ptag (s : List Char) : Parser (List Char) := fun input =>
  match tagCore s input with
  | some rest => some (rest, s)
  | none => none

/-- nom `take_while1(p)`. -/
def ptakeWhile1 (p : Char → Bool) : Parser (List Char) := fun input =>
  match input.takeWhile p with
  | [] => none
  | c :: cs => some (input.dropWhile p, c :: cs)

/-- nom `multispace0` (zero or more of space, tab, CR, LF — exactly
`Char.isWhitespace`). -/
def pws0 : Parser Unit := fun input =>
  some (input.dropWhile Char.isWhitespace, ())

/-- nom `many0(p)`, with fuel bounding the number of iterations. Every
parser iterated in the source consumes at least one character on success,
so fuel `input.length + 1` makes the fuel bound unreachable. -/
def pmany0 {α : Type} (p : Parser α) : Nat → Parser (List α)
  | 0 => fun input => some (input, [])
  | n + 1 => fun input =>
      match p input with
      | none => some (input, [])
      | some (rest, a) =>
          match pmany0 p n rest with
          | none => none
          | some (rest2, xs) => some (rest2, a :: xs)

/-- nom `many1(p)`. -/
def pmany1 {α : Type} (p : Parser α) (fuel : Nat) : Parser (List α) := fun input =>
  match p input with
  | none => none
  | some (rest, a) =>
      match pmany0 p fuel rest with
      | none => none
      | some (rest2, xs) => some (rest2, a :: xs)

/-! ## parser.rs: the grammar -/

namespace parser

/-- parser.rs: `parameter_name` — `take_while1(|c| c.is_alphanumeric() || c == '_')`.
Per spec section 6 the name character class is ASCII alphanumerics plus
underscore; `Char.isAlphanum` is that ASCII class. -/
def parameter_name : Parser (List Char) :=
  ptakeWhile1 (fun c => c.isAlphanum || c = '_')

/-- parser.rs: `simple_parameter` — `'{' ws* name ws* '}'`. -/
def simple_parameter : Parser MessageElement := fun input => do
  let (r1, _) ← pchar '{' input
  let (r2, _) ← pws0 r1
  let (r3, name) ← parameter_name r2
  let (r4, _) ← pws0 r3
  let (r5, _) ← pchar '}' r4
  some (r5, .parameter (String.mk name))

/-- parser.rs: `plural_selector` — an alphanumeric token run through
`PluralSelector::parse`, defaulting to `Other` via `unwrap_or`. -/
def plural_selector : Parser PluralSelector := fun input => do
  let (rest, tok) ← ptakeWhile1 Char.isAlphanum input
  some (rest, (PluralSelector.parse (String.mk tok)).getD .other)

/-- parser.rs: `select_selector` — alphanumeric-or-underscore token. -/
def select_selector : Parser String := fun input => do
  let (rest, tok) ← ptakeWhile1 (fun c => c.isAlphanum || c = '_') input
  some (rest, String.mk tok)

/-- parser.rs: `text_segment_in_case` — one or more characters that are
neither `{` nor `}`. -/
def text_segment_in_case : Parser MessageElement := fun input => do
  let (rest, tok) ← ptakeWhile1 (fun c => c ≠ '{' && c ≠ '}') input
  some (rest, .text (String.mk tok))

/-- parser.rs: `text_segment` — one or more characters other than `{`. -/
def text_segment : Parser MessageElement := fun input => do
  let (rest, tok) ← ptakeWhile1 (fun c => c ≠ '{') input
  some (rest, .text (String.mk tok))

/-- Shared head of the three keyword constructs: `'{' ws* name ws* ','
ws* keyword`, yielding the parameter name. -/
def construct_head (keyword : List Char) : Parser (List Char) := fun input => do
  let s1 ← pchar '{' input
  let s2 ← pws0 s1.1
  let s3 ← parameter_name s2.1
  let s4 ← pws0 s3.1
  let s5 ← pchar ',' s4.1
  let s6 ← pws0 s5.1
  let s7 ← ptag keyword s6.1
  some (s7.1, s3.2)

/-- Shared tail of `plural_expression`/`select_expression`: `ws* ',' ws*
case+ ws* '}'` over a given case parser. -/
def construct_cases {α : Type} (pc : Parser α) : Parser (List α) := fun input => do
  let s8 ← pws0 input
  let s9 ← pchar ',' s8.1
  let s10 ← pws0 s9.1
  let s11 ← pmany1 pc (s10.1.length + 1) s10.1
  let s12 ← pws0 s11.1
  let s13 ← pchar '}' s12.1
  some (s13.1, s11.2)

/-- parser.rs: `number_format_type` — `integer` | `percent` |
`currency('/'code)?` (code defaulting to `"USD"`) | ε (= `Number`). -/
def number_format_type : Parser NumberFormatType := fun input =>
  match ptag "integer".data input with
  | some (rest, _) => some (rest, .integer)
  | none =>
  match ptag "percent".data input with
  | some (rest, _) => some (rest, .percent)
  | none =>
  match ptag "currency".data input with
  | some (rest, _) =>
      (match pchar '/' rest with
       | some (r2, _) =>
           (match ptakeWhile1 Char.isAlphanum r2 with
            | some (r3, code) => some (r3, .currency (String.mk code))
            | none => some (rest, .currency "USD"))
       | none => some (rest, .currency "USD"))
  | none => some (input, .number)

/-- parser.rs: `number_expression` — `'{' ws* name ws* ',' ws* "number"
((ws* ',' ws* number_format_type) | ws*) '}'`. -/
def number_expression : Parser MessageElement := fun input => do
  let h ← construct_head "number".data input
  let afterFmt : List Char × NumberFormatType :=
    match (do
      let t1 ← pws0 h.1
      let t2 ← pchar ',' t1.1
      let t3 ← pws0 t2.1
      number_format_type t3.1 : Option (List Char × NumberFormatType)) with
    | some r => r
    | none =>
        match pws0 h.1 with
        | some t1 => (t1.1, .number)
        | none => (h.1, .number)
  let r9 ← pchar '}' afterFmt.1
  some (r9.1, .number (String.mk h.2) afterFmt.2)

/-- parser.rs: `case_content` body, parameterized by the case-element
parser — `'{' (number|select|plural|param|text)* '}'`. -/
def case_content_with (el : Parser MessageElement) : Parser Message := fun input => do
  let (r1, _) ← pchar '{' input
  let (r2, elems) ← pmany0 el (r1.length + 1) r1
  let (r3, _) ← pchar '}' r2
  some (r3, elems)

/-- parser.rs: the alternative list inside `case_content`, in source order
(`number`, `select`, `plural`, bare parameter, case text). -/
def case_element_with (sel pl : Parser MessageElement) : Parser MessageElement := fun input =>
  match number_expression input with
  | some r => some r
  | none =>
  match sel input with
  | some r => some r
  | none =>
  match pl input with
  | some r => some r
  | none =>
  match simple_parameter input with
  | some r => some r
  | none => text_segment_in_case input

/-- parser.rs: `plural_case` body — `ws* plural_selector ws* case_content`. -/
def plural_case_with (cc : Parser Message) : Parser (PluralSelector × Message) := fun input => do
  let (r1, _) ← pws0 input
  let (r2, sel) ← plural_selector r1
  let (r3, _) ← pws0 r2
  let (r4, msg) ← cc r3
  some (r4, (sel, msg))

/-- parser.rs: `select_case` body — `ws* select_selector ws* case_content`. -/
def select_case_with (cc : Parser Message) : Parser (String × Message) := fun input => do
  let (r1, _) ← pws0 input
  let (r2, sel) ← select_selector r1
  let (r3, _) ← pws0 r2
  let (r4, msg) ← cc r3
  some (r4, (sel, msg))

/-- parser.rs: `plural_expression` — `'{' ws* name ws* ',' ws* "plural" ws*
',' ws* plural_case+ ws* '}'`. -/
def plural_expression_with (pc : Parser (PluralSelector × Message)) : Parser MessageElement :=
  fun input => do
    let h ← construct_head "plural".data input
    let t ← construct_cases pc h.1
    some (t.1, .plural (String.mk h.2) t.2)

/-- parser.rs: `select_expression` — `'{' ws* name ws* ',' ws* "select"
ws* ',' ws* select_case+ ws* '}'`. -/
def select_expression_with (sc : Parser (String × Message)) : Parser MessageElement :=
  fun input => do
    let h ← construct_head "select".data input
    let t ← construct_cases sc h.1
    some (t.1, .select (String.mk h.2) t.2)

/-- Bundle of the five mutually recursive grammar productions of
parser.rs. They are tied together by recursion on fuel; each
cross-reference steps to the next lower fuel level. -/
structure GrammarFns where
  caseContentP : Parser Message
  caseElementP : Parser MessageElement
  pluralCaseP : Parser (PluralSelector × Message)
  selectCaseP : Parser (String × Message)
  pluralExpressionP : Parser MessageElement
  selectExpressionP : Parser MessageElement

/-- The fueled grammar knot. Fuel `0` makes every production fail; the
public entry points supply enough fuel that this is unreachable. -/
def grammar : Nat → GrammarFns
  | 0 =>
      { caseContentP := fun _ => none
        caseElementP := fun _ => none
        pluralCaseP := fun _ => none
        selectCaseP := fun _ => none
        pluralExpressionP := fun _ => none
        selectExpressionP := fun _ => none }
  | fuel + 1 =>
      let g := grammar fuel
      { caseContentP := case_content_with g.caseElementP
        caseElementP := case_element_with g.selectExpressionP g.pluralExpressionP
        pluralCaseP := plural_case_with g.caseContentP
        selectCaseP := select_case_with g.caseContentP
        pluralExpressionP := plural_expression_with g.pluralCaseP
        selectExpressionP := select_expression_with g.selectCaseP }

/-- parser.rs: `case_content` — `'{' (number|select|plural|param|text)* '}'`. -/
def case_content (fuel : Nat) : Parser Message := (grammar fuel).caseContentP

/-- parser.rs: the alternative list inside `case_content`, in source order. -/
def case_element (fuel : Nat) : Parser MessageElement := (grammar fuel).caseElementP

/-- parser.rs: `plural_case` — `ws* plural_selector ws* case_content`. -/
def plural_case (fuel : Nat) : Parser (PluralSelector × Message) := (grammar fuel).pluralCaseP

/-- parser.rs: `select_case` — `ws* select_selector ws* case_content`. -/
def select_case (fuel : Nat) : Parser (String × Message) := (grammar fuel).selectCaseP

/-- parser.rs: `plural_expression` — `'{' ws* name ws* ',' ws* "plural" ws*
',' ws* plural_case+ ws* '}'`. -/
def plural_expression (fuel : Nat) : Parser MessageElement := (grammar fuel).pluralExpressionP

/-- parser.rs: `select_expression` — `'{' ws* name ws* ',' ws* "select" ws*
',' ws* select_case+ ws* '}'`. -/
def select_expression (fuel : Nat) : Parser MessageElement := (grammar fuel).selectExpressionP

/-- parser.rs: `message_element` — the top-level alternative list, in the
fixed source order `number`, `select`, `plural`, bare parameter, text. -/
def message_element (fuel : Nat) : Parser MessageElement := fun input =>
  match number_expression input with
  | some r => some r
  | none =>
  match select_expression fuel input with
  | some r => some r
  | none =>
  match plural_expression fuel input with
  | some r => some r
  | none =>
  match simple_parameter input with
  | some r => some r
  | none => text_segment input

/-- parser.rs: `parse_message` — `many0(message_element)` wrapped into a
`Message`. The result pairs the unconsumed residue with the message, as
`nom`'s `IResult` does. -/
def parse_message (input : List Char) : Option (List Char × Message) :=
  pmany0 (message_element (input.length + 1)) (input.length + 1) input

end parser

/-! ## formatter.rs: the evaluator -/

/-- formatter.rs: `FormatError`. -/
inductive FormatError where
  | missingParameter (name : String)
  | invalidParameterType (name : String)
deriving DecidableEq, Repr

/-- lib.rs: `MessageFormatError` — parse failure or format failure. -/
inductive MessageFormatError where
  | parseError (msg : String)
  | formatError (e : FormatError)
deriving DecidableEq, Repr

/-- Modelled from the spec: the external Number Formatting Service of
spec section 6 together with the host float operations, neither of which
is code of this repository (`icu` crates and `f64` arithmetic). Each field
abstracts one external step used by formatter.rs, with `none` standing for
that step's failure:

* `parse_f64` — `s.parse::<f64>()` when resolving a `Number` element;
* `of_i64` — the `*n as f64` conversion of an integer binding;
* `fixed_try_new` — `FixedDecimalFormatter::try_new` for the locale;
* `to_fixed` — building a `FixedDecimal` from the value (the
  fract/i64-range test plus the fallible string parse);
* `fixed_of_i64` — `FixedDecimal::from(value as i64)` (infallible);
* `fixed_format` — `formatter.format(..).to_string()`;
* `as_i64` — the `value as i64` truncation in the `Integer` branch;
* `percent_as_i64` — `(value * 100.0) as i64` in the `Percent` branch;
* `currency_try_new` — `CurrencyFormatter::try_new` for the locale;
* `currency_format` — `format_fixed_decimal` plus the fallible `write_to`,
  receiving the uppercased three-letter code.

`V` abstracts `f64` and `D` abstracts `FixedDecimal`; the locale is a
fixed parameter of every external call, so it is absorbed into the
structure. -/
structure NumberExt (V D : Type) where
  parse_f64 : String → Option V
  of_i64 : Int → V
  fixed_try_new : Option Unit
  to_fixed : V → Option D
  fixed_of_i64 : Int → D
  fixed_format : D → String
  as_i64 : V → Int
  percent_as_i64 : V → Int
  currency_try_new : Option Unit
  currency_format : String → D → Option String

namespace formatter

/-- formatter.rs: the first loop of `select_plural_case` — scan for an
`Exact(n)` case with `n == count`. -/
def find_exact_case (cases : List (PluralSelector × Message)) (count : Int) : Option Message :=
  match cases with
  | [] => none
  | (sel, msg) :: rest =>
      match sel with
      | .exact n => if n = count then some msg else find_exact_case rest count
      | _ => find_exact_case rest count

/-- formatter.rs: the second and third loops of `select_plural_case` —
scan for a case whose selector equals a given selector. -/
def find_selector_case (cases : List (PluralSelector × Message)) (rule : PluralSelector) :
    Option Message :=
  match cases with
  | [] => none
  | (sel, msg) :: rest => if sel = rule then some msg else find_selector_case rest rule

/-- formatter.rs: the `match count` inside `select_plural_case` deriving
the basic English plural category. -/
def plural_rule (count : Int) : PluralSelector :=
  if count = 0 then .zero
  else if count = 1 then .one
  else if count = 2 then .two
  else .other

/-- formatter.rs: `select_plural_case` — exact match, then rule-derived
category, then fall back to `Other`. -/
def select_plural_case (cases : List (PluralSelector × Message)) (count : Int) : Option Message :=
  match find_exact_case cases count with
  | some m => some m
  | none =>
      match find_selector_case cases (plural_rule count) with
      | some m => some m
      | none => find_selector_case cases .other

/-- Character-level model of Rust `str::replace` with the single-character
pattern `'#'`: each occurrence of `#` is replaced by the replacement
string. -/
def hashSubChars (r : List Char) : List Char → List Char
  | [] => []
  | c :: cs => (if c = '#' then r else [c]) ++ hashSubChars r cs

/-- formatter.rs: `substitute_hash_placeholder` —
`text.replace('#', &count.to_string())`. -/
def substitute_hash_placeholder (text : String) (count : Int) : String :=
  String.mk (hashSubChars (toString count).data text.data)

/-- formatter.rs: the first loop of `select_case` — scan for a selector
equal to the value. -/
def find_string_case (cases : List (String × Message)) (value : String) : Option Message :=
  match cases with
  | [] => none
  | (sel, msg) :: rest => if sel = value then some msg else find_string_case rest value

/-- formatter.rs: `select_case` — exact match, then fall back to the first
case whose selector is the literal string `"other"`. -/
def select_case (cases : List (String × Message)) (value : String) : Option Message :=
  match find_string_case cases value with
  | some m => some m
  | none => find_string_case cases "other"

/-- Rust `str::to_uppercase` as used on the currency code. The codes
reaching it are ASCII-only (enforced by the preceding shape check), where
Unicode uppercasing coincides with charwise ASCII `Char.toUpper`. -/
def ascii_upper (s : String) : String :=
  String.mk (s.data.map Char.toUpper)

/-- formatter.rs: `format_number`. The ICU and float steps go through the
`NumberExt` collaborator; the branch structure, the error values, and the
currency-code validation (`currency.len() == 3 &&
currency.chars().all(|c| c.is_ascii_alphabetic())`, then uppercasing)
follow the source. The `currency_upper.parse()` into a `TinyAsciiStr`
cannot fail for a string of exactly three ASCII letters, so its error
branch is not modelled. -/
def format_number {V D : Type} (ext : NumberExt V D) (value : V) :
    NumberFormatType → Except FormatError String
  | .number =>
      match ext.fixed_try_new with
      | none => .error (.invalidParameterType "number")
      | some _ =>
          match ext.to_fixed value with
          | none => .error (.invalidParameterType "number")
          | some d => .ok (ext.fixed_format d)
  | .integer =>
      match ext.fixed_try_new with
      | none => .error (.invalidParameterType "number")
      | some _ => .ok (ext.fixed_format (ext.fixed_of_i64 (ext.as_i64 value)))
  | .percent => .ok (toString (ext.percent_as_i64 value) ++ "%")
  | .currency currency =>
      match ext.currency_try_new with
      | none => .error (.invalidParameterType "currency")
      | some _ =>
          match ext.to_fixed value with
          | none => .error (.invalidParameterType "currency")
          | some d =>
              if currency.length == 3 && currency.data.all Char.isAlpha then
                match ext.currency_format (ascii_upper currency) d with
                | none => .error (.invalidParameterType "currency formatting")
                | some s => .ok s
              else
                .error (.invalidParameterType
                  ("Currency code must be 3 ASCII letters: " ++ currency))

/-- A message found by `find_exact_case` is a structural part of the case
list (used for the termination of `format_message`). -/
def sizeOf_lt_of_find_exact {cases : List (PluralSelector × Message)} {count : Int}
    {m : Message} (h : find_exact_case cases count = some m) : sizeOf m < sizeOf cases := by
  induction cases with
  | nil => simp [find_exact_case] at h
  | cons c rest ih =>
      obtain ⟨sel, msg⟩ := c
      simp only [find_exact_case] at h
      cases sel <;> simp_all <;>
        first
        | (split at h <;> simp_all <;> omega)
        | omega

/-- A message found by `find_selector_case` is a structural part of the
case list. -/
def sizeOf_lt_of_find_selector {cases : List (PluralSelector × Message)}
    {rule : PluralSelector} {m : Message} (h : find_selector_case cases rule = some m) :
    sizeOf m < sizeOf cases := by
  induction cases with
  | nil => simp [find_selector_case] at h
  | cons c rest ih =>
      obtain ⟨sel, msg⟩ := c
      simp only [find_selector_case] at h
      split at h <;> simp_all <;> omega

/-- A message selected by `select_plural_case` is a structural part of the
case list. -/
def sizeOf_lt_of_select_plural {cases : List (PluralSelector × Message)} {count : Int}
    {m : Message} (h : select_plural_case cases count = some m) : sizeOf m < sizeOf cases := by
  unfold select_plural_case at h
  split at h
  case _ heq => cases h; exact sizeOf_lt_of_find_exact heq
  case _ =>
    split at h
    case _ heq => cases h; exact sizeOf_lt_of_find_selector heq
    case _ => exact sizeOf_lt_of_find_selector h

/-- A message found by `find_string_case` is a structural part of the case
list. -/
def sizeOf_lt_of_find_string {cases : List (String × Message)} {value : String}
    {m : Message} (h : find_string_case cases value = some m) : sizeOf m < sizeOf cases := by
  induction cases with
  | nil => simp [find_string_case] at h
  | cons c rest ih =>
      obtain ⟨sel, msg⟩ := c
      simp only [find_string_case] at h
      split at h <;> simp_all <;> omega

/-- A message selected by `select_case` is a structural part of the case
list. -/
def sizeOf_lt_of_select_case {cases : List (String × Message)} {value : String}
    {m : Message} (h : select_case cases value = some m) : sizeOf m < sizeOf cases := by
  unfold select_case at h
  split at h
  case _ heq => cases h; exact sizeOf_lt_of_find_string heq
  case _ => exact sizeOf_lt_of_find_string h

/-- formatter.rs: `format_message` — walk the elements in order, appending
each rendering, aborting on the first error. Recursion into a selected
plural/select case body mirrors the recursive call in the source; the two
resolver `let`s mirror the `match parameters.get(..)` blocks computing the
plural count and the numeric value. -/
def format_message {V D : Type} (ext : NumberExt V D) (params : Parameters) :
    Message → Except FormatError String
  | [] => .ok ""
  | .text s :: rest =>
      match format_message ext params rest with
      | .error e => .error e
      | .ok r => .ok (s ++ r)
  | .parameter name :: rest =>
      match params.get name with
      | some (.string v) =>
          match format_message ext params rest with
          | .error e => .error e
          | .ok r => .ok (v ++ r)
      | some (.number n) =>
          match format_message ext params rest with
          | .error e => .error e
          | .ok r => .ok (toString n ++ r)
      | none => .error (.missingParameter name)
  | .plural parameter cases :: rest =>
      let countR : Except FormatError Int :=
        match params.get parameter with
        | some (.number n) => .ok n
        | some (.string s) =>
            match parseI64 s with
            | some n => .ok n
            | none => .error (.invalidParameterType parameter)
        | none => .error (.missingParameter parameter)
      match countR with
      | .error e => .error e
      | .ok count =>
          match h : select_plural_case cases count with
          | none => format_message ext params rest
          | some m =>
              match format_message ext params m with
              | .error e => .error e
              | .ok sub =>
                  match format_message ext params rest with
                  | .error e => .error e
                  | .ok r => .ok (substitute_hash_placeholder sub count ++ r)
  | .select parameter cases :: rest =>
      let valueR : Except FormatError String :=
        match params.get parameter with
        | some (.string s) => .ok s
        | some (.number _) => .error (.invalidParameterType parameter)
        | none => .error (.missingParameter parameter)
      match valueR with
      | .error e => .error e
      | .ok value =>
          match h : select_case cases value with
          | none => format_message ext params rest
          | some m =>
              match format_message ext params m with
              | .error e => .error e
              | .ok sub =>
                  match format_message ext params rest with
                  | .error e => .error e
                  | .ok r => .ok (sub ++ r)
  | .number parameter format_type :: rest =>
      let valueR : Except FormatError V :=
        match params.get parameter with
        | some (.number n) => .ok (ext.of_i64 n)
        | some (.string s) =>
            match ext.parse_f64 s with
            | some v => .ok v
            | none => .error (.invalidParameterType parameter)
        | none => .error (.missingParameter parameter)
      match valueR with
      | .error e => .error e
      | .ok v =>
          match format_number ext v format_type with
          | .error e => .error e
          | .ok s =>
              match format_message ext params rest with
              | .error e => .error e
              | .ok r => .ok (s ++ r)
termination_by msg => sizeOf msg
decreasing_by
  all_goals simp_wf
  all_goals first
    | (have hlt := sizeOf_lt_of_select_plural h; omega)
    | (have hlt := sizeOf_lt_of_select_case h; omega)
    | omega

end formatter

/-- lib.rs: `format` — parse, discarding the unconsumed residue, then
format. The `nom` error branch (`From<nom::Err<..>>` building a
`ParseError` from the debug string) is unreachable because `parse_message`
never fails; the placeholder message stands in for that debug string. -/
def format {V D : Type} (ext : NumberExt V D) (message_str : String) (params : Parameters) :
    Except MessageFormatError String :=
  match parser.parse_message message_str.data with
  | none => .error (.parseError "parse error")
  | some (_, message) =>
      match formatter.format_message ext params message with
      | .error e => .error (.formatError e)
      | .ok result => .ok result

/-- Trivial instantiation of the external number-formatting collaborators,
used to evaluate the embedding at concrete inputs whose behavior does not
depend on the external service. -/
def unitExt : NumberExt Unit Unit where
  parse_f64 := fun _ => some ()
  of_i64 := fun _ => ()
  fixed_try_new := some ()
  to_fixed := fun _ => some ()
  fixed_of_i64 := fun _ => ()
  fixed_format := fun _ => "0"
  as_i64 := fun _ => 0
  percent_as_i64 := fun _ => 0
  currency_try_new := some ()
  currency_format := fun code _ => some ("[" ++ code ++ "]")

/-! ## Verification predicates -/

/-- A plural selector with no negative exact value (claim C10's invariant). -/
def selector_nonneg : PluralSelector → Bool
  | .exact n => decide (0 ≤ n)
  | _ => true

mutual

/-- Every `exact` selector anywhere inside an element is nonnegative. -/
def elem_nonneg : MessageElement → Bool
  | .text _ => true
  | .parameter _ => true
  | .number _ _ => true
  | .plural _ cases => plural_cases_nonneg cases
  | .select _ cases => select_cases_nonneg cases

/-- Every `exact` selector anywhere inside a message is nonnegative. -/
def msg_nonneg : Message → Bool
  | [] => true
  | e :: rest => elem_nonneg e && msg_nonneg rest

/-- Every `exact` selector anywhere inside a plural case list is
nonnegative. -/
def plural_cases_nonneg : List (PluralSelector × Message) → Bool
  | [] => true
  | (sel, m) :: rest => selector_nonneg sel && msg_nonneg m && plural_cases_nonneg rest

/-- Every `exact` selector anywhere inside a select case list is
nonnegative. -/
def select_cases_nonneg : List (String × Message) → Bool
  | [] => true
  | (_, m) :: rest => msg_nonneg m && select_cases_nonneg rest

end

/-! ## Theorems -/

namespace formatter

theorem find_exact_case_eq_find (cases : List (PluralSelector × Message)) (count : Int) :
    find_exact_case cases count =
      (cases.find? (fun c => match c.1 with | .exact n => n == count | _ => false)).map
        Prod.snd := by
  induction cases with
  | nil => simp [find_exact_case]
  | cons c rest ih =>
      obtain ⟨sel, msg⟩ := c
      cases sel with
      | exact n =>
          by_cases hn : n = count
          · subst hn; simp [find_exact_case, List.find?]
          · have hb : (n == count) = false := beq_eq_false_iff_ne.mpr hn
            simp [find_exact_case, List.find?, hn, ih, hb]
      | _ => simp [find_exact_case, List.find?, ih]

theorem find_selector_case_eq_find (cases : List (PluralSelector × Message))
    (rule : PluralSelector) :
    find_selector_case cases rule =
      (cases.find? (fun c => c.1 == rule)).map Prod.snd := by
  induction cases with
  | nil => simp [find_selector_case]
  | cons c rest ih =>
      obtain ⟨sel, msg⟩ := c
      by_cases hsr : sel = rule
      · subst hsr; simp [find_selector_case, List.find?]
      · have hb : (sel == rule) = false := beq_eq_false_iff_ne.mpr hsr
        simp [find_selector_case, List.find?, hsr, ih, hb]

theorem select_plural_case_spec (cases : List (PluralSelector × Message)) (count : Int) :
    select_plural_case cases count =
      (((cases.find? (fun c => match c.1 with | .exact n => n == count | _ => false)).map
          Prod.snd).orElse
        (fun _ =>
          (((cases.find? (fun c => c.1 == plural_rule count)).map Prod.snd).orElse
            (fun _ => (cases.find? (fun c => c.1 == PluralSelector.other)).map Prod.snd)))) := by
  rw [select_plural_case, ← find_exact_case_eq_find, ← find_selector_case_eq_find,
    ← find_selector_case_eq_find]
  cases find_exact_case cases count <;> cases h2 : find_selector_case cases (plural_rule count) <;>
    simp [Option.orElse]

theorem format_message_plural_none {V D : Type} (ext : NumberExt V D) (params : Parameters)
    (param : String) (cases : List (PluralSelector × Message)) (count : Int) (rest : Message)
    (hbind : params.get param = some (.number count))
    (hnone : select_plural_case cases count = none) :
    format_message ext params (.plural param cases :: rest) = format_message ext params rest := by
  rw [format_message]
  simp only [hbind]
  split
  · rfl
  · next m heq => rw [hnone] at heq; cases heq

end formatter

/-- Claim C2: for a plural element whose count is resolved from its
parameter, the case is selected by exactly three steps in order — first
any `Exact(n)` case with `n = count` (even when a named-category case is
also present), then the case whose selector is the rule-derived category
(`0 → Zero`, `1 → One`, `2 → Two`, otherwise `Other`), then the first
`Other` case — and if no step selects a case the plural element
contributes nothing and formatting continues successfully. -/
theorem C2_plural_case_selection {V D : Type} (ext : NumberExt V D) (params : Parameters)
    (param : String) (cases : List (PluralSelector × Message)) (count : Int) (rest : Message)
    (hbind : params.get param = some (.number count)) :
    formatter.select_plural_case cases count =
      (((cases.find? (fun c => match c.1 with | .exact n => n == count | _ => false)).map
          Prod.snd).orElse
        (fun _ =>
          (((cases.find? (fun c => c.1 == formatter.plural_rule count)).map Prod.snd).orElse
            (fun _ => (cases.find? (fun c => c.1 == PluralSelector.other)).map Prod.snd))))
    ∧ formatter.plural_rule count =
        (if count = 0 then .zero else if count = 1 then .one
         else if count = 2 then .two else .other)
    ∧ (formatter.select_plural_case cases count = none →
        formatter.format_message ext params (.plural param cases :: rest) =
          formatter.format_message ext params rest) := by
  refine ⟨formatter.select_plural_case_spec cases count, rfl, fun hnone => ?_⟩
  exact formatter.format_message_plural_none ext params param cases count rest hbind hnone

/-- Concrete instantiation of C2: an `Exact(5)` case wins over `other` and
`many` cases for count 5, and a plural with only a `one` case renders as
the empty string for count 5 with the call succeeding. -/
theorem C2_plural_case_selection_witness :
    formatter.select_plural_case
        [(.other, [.text "o"]), (.many, [.text "m"]), (.exact 5, [.text "e"])] 5 =
      some [.text "e"]
    ∧ formatter.format_message unitExt ⟨[("c", .number 5)]⟩
        [.plural "c" [(.one, [.text "x"])]] = .ok "" := by
  constructor
  · have h := (C2_plural_case_selection unitExt ⟨[("c", .number 5)]⟩ "c"
      [(.other, [.text "o"]), (.many, [.text "m"]), (.exact 5, [.text "e"])] 5 [] rfl).1
    rw [h]; rfl
  · have h := (C2_plural_case_selection unitExt ⟨[("c", .number 5)]⟩ "c"
      [(.one, [.text "x"])] 5 [] rfl).2.2 rfl
    rw [h]; simp [formatter.format_message]

namespace formatter

theorem hashSubChars_eq_flatten (r : List Char) (cs : List Char) :
    hashSubChars r cs = (cs.map (fun c => if c = '#' then r else [c])).flatten := by
  induction cs with
  | nil => simp [hashSubChars]
  | cons c rest ih => simp [hashSubChars, ih]

theorem format_message_plural_some {V D : Type} (ext : NumberExt V D) (params : Parameters)
    (param : String) (cases : List (PluralSelector × Message)) (count : Int) (m : Message)
    (hbind : params.get param = some (.number count))
    (hsel : select_plural_case cases count = some m) :
    format_message ext params [.plural param cases] =
      (format_message ext params m).map
        (fun sub => substitute_hash_placeholder sub count) := by
  rw [format_message]
  simp only [hbind]
  split
  · next heq => rw [hsel] at heq; cases heq
  · next m' heq =>
      rw [hsel] at heq
      cases heq
      cases hm : format_message ext params m <;>
        simp [formatter.format_message, hm, Except.map]

end formatter

/-- Claim C3: when plural case selection succeeds, the element first
recursively formats the selected sub-message with the same binding set and
external collaborators, then replaces every `#` character of the fully
rendered result — wherever it came from — with the decimal representation
of the count; the substitution is purely textual on the rendered output. -/
theorem C3_hash_after_render {V D : Type} (ext : NumberExt V D) (params : Parameters)
    (param : String) (cases : List (PluralSelector × Message)) (count : Int) (m : Message)
    (hbind : params.get param = some (.number count))
    (hsel : formatter.select_plural_case cases count = some m) :
    formatter.format_message ext params [.plural param cases] =
      (formatter.format_message ext params m).map
        (fun sub => formatter.substitute_hash_placeholder sub count)
    ∧ ∀ s : String, formatter.substitute_hash_placeholder s count =
        String.mk ((s.data.map
          (fun c => if c = '#' then (toString count).data else [c])).flatten) := by
  refine ⟨formatter.format_message_plural_some ext params param cases count m hbind hsel,
    fun s => ?_⟩
  rw [formatter.substitute_hash_placeholder, formatter.hashSubChars_eq_flatten]

/-- Concrete instantiation of C3: with count 7, a case body whose nested
select construct renders `a#b` and whose own literal text contains ` #`,
the rendered string `a#b #` has both `#` occurrences replaced, giving
`a7b 7`. -/
theorem C3_hash_after_render_witness :
    formatter.format_message unitExt ⟨[("c", .number 7), ("g", .string "x")]⟩
      [.plural "c" [(.other, [.select "g" [("x", [.text "a#b"])], .text " #"])]] =
      .ok "a7b 7" := by
  have h := (C3_hash_after_render unitExt ⟨[("c", .number 7), ("g", .string "x")]⟩
    "c" [(.other, [.select "g" [("x", [.text "a#b"])], .text " #"])] 7
    [.select "g" [("x", [.text "a#b"])], .text " #"] rfl rfl).1
  rw [h]
  simp [formatter.format_message, formatter.select_case, formatter.find_string_case,
    Parameters.get, List.find?]
  rfl

namespace formatter

theorem find_string_case_eq_find (cases : List (String × Message)) (value : String) :
    find_string_case cases value = (cases.find? (fun c => c.1 == value)).map Prod.snd := by
  induction cases with
  | nil => simp [find_string_case]
  | cons c rest ih =>
      obtain ⟨sel, msg⟩ := c
      by_cases hsv : sel = value
      · subst hsv; simp [find_string_case, List.find?]
      · have hb : (sel == value) = false := beq_eq_false_iff_ne.mpr hsv
        simp [find_string_case, List.find?, hsv, ih, hb]

theorem select_case_spec (cases : List (String × Message)) (value : String) :
    select_case cases value =
      (((cases.find? (fun c => c.1 == value)).map Prod.snd).orElse
        (fun _ => (cases.find? (fun c => c.1 == "other")).map Prod.snd)) := by
  rw [select_case, ← find_string_case_eq_find, ← find_string_case_eq_find]
  cases find_string_case cases value <;> simp [Option.orElse]

theorem format_message_select_number {V D : Type} (ext : NumberExt V D) (params : Parameters)
    (param : String) (cases : List (String × Message)) (n : Int)
    (hbind : params.get param = some (.number n)) :
    format_message ext params [.select param cases] = .error (.invalidParameterType param) := by
  rw [format_message]
  simp [hbind]

theorem format_message_select_missing {V D : Type} (ext : NumberExt V D) (params : Parameters)
    (param : String) (cases : List (String × Message))
    (hbind : params.get param = none) :
    format_message ext params [.select param cases] = .error (.missingParameter param) := by
  rw [format_message]
  simp [hbind]

theorem format_message_select_some {V D : Type} (ext : NumberExt V D) (params : Parameters)
    (param : String) (cases : List (String × Message)) (v : String) (m : Message)
    (hbind : params.get param = some (.string v))
    (hsel : select_case cases v = some m) :
    format_message ext params [.select param cases] = format_message ext params m := by
  rw [format_message]
  simp only [hbind]
  split
  · next heq => rw [hsel] at heq; cases heq
  · next m' heq =>
      rw [hsel] at heq
      cases heq
      cases hm : format_message ext params m <;>
        simp [formatter.format_message, hm]

theorem format_message_select_none {V D : Type} (ext : NumberExt V D) (params : Parameters)
    (param : String) (cases : List (String × Message)) (v : String)
    (hbind : params.get param = some (.string v))
    (hsel : select_case cases v = none) :
    format_message ext params [.select param cases] = .ok "" := by
  rw [format_message]
  simp only [hbind]
  split
  · next heq => simp [formatter.format_message]
  · next m' heq => rw [hsel] at heq; cases heq

end formatter

/-- Claim C4: a select element fails with `InvalidParameterType` on a
numeric binding and with `MissingParameter` on an absent binding; for a
string binding the case is chosen by exact, case-sensitive equality in
declared order with fallback to the first case whose selector is the
literal string `"other"`, the chosen case being formatted with the same
bindings, and the element contributes the empty string — with the call
succeeding — when even that fallback is absent. -/
theorem C4_select_semantics {V D : Type} (ext : NumberExt V D) (params : Parameters)
    (param : String) (cases : List (String × Message)) :
    (∀ n : Int, params.get param = some (.number n) →
      formatter.format_message ext params [.select param cases] =
        .error (.invalidParameterType param))
    ∧ (params.get param = none →
      formatter.format_message ext params [.select param cases] =
        .error (.missingParameter param))
    ∧ (∀ v : String, params.get param = some (.string v) →
      formatter.select_case cases v =
        (((cases.find? (fun c => c.1 == v)).map Prod.snd).orElse
          (fun _ => (cases.find? (fun c => c.1 == "other")).map Prod.snd))
      ∧ (∀ m : Message, formatter.select_case cases v = some m →
          formatter.format_message ext params [.select param cases] =
            formatter.format_message ext params m)
      ∧ (formatter.select_case cases v = none →
          formatter.format_message ext params [.select param cases] = .ok "")) := by
  refine ⟨fun n hbind => formatter.format_message_select_number ext params param cases n hbind,
    fun hbind => formatter.format_message_select_missing ext params param cases hbind,
    fun v hbind => ⟨formatter.select_case_spec cases v,
      fun m hsel => formatter.format_message_select_some ext params param cases v m hbind hsel,
      fun hsel => formatter.format_message_select_none ext params param cases v hbind hsel⟩⟩

/-- Concrete instantiation of C4 on the gender example: a numeric binding
fails with `InvalidParameterType`, a missing binding fails with
`MissingParameter`, the unmatched value `nonbinary` falls back to the
`other` case, and with no `other` case an unmatched value contributes the
empty string. -/
theorem C4_select_semantics_witness :
    formatter.format_message unitExt ⟨[("gender", .number 3)]⟩
      [.select "gender" [("male", [.text "He"]), ("other", [.text "They"])]] =
        .error (.invalidParameterType "gender")
    ∧ formatter.format_message unitExt ⟨[]⟩
      [.select "gender" [("male", [.text "He"]), ("other", [.text "They"])]] =
        .error (.missingParameter "gender")
    ∧ formatter.format_message unitExt ⟨[("gender", .string "nonbinary")]⟩
      [.select "gender" [("male", [.text "He"]), ("other", [.text "They"])]] =
        formatter.format_message unitExt ⟨[("gender", .string "nonbinary")]⟩ [.text "They"]
    ∧ formatter.format_message unitExt ⟨[("gender", .string "nonbinary")]⟩
      [.select "gender" [("male", [.text "He"])]] = .ok "" := by
  refine ⟨(C4_select_semantics unitExt ⟨[("gender", .number 3)]⟩ "gender"
      [("male", [.text "He"]), ("other", [.text "They"])]).1 3 rfl,
    (C4_select_semantics unitExt ⟨[]⟩ "gender"
      [("male", [.text "He"]), ("other", [.text "They"])]).2.1 rfl,
    ((C4_select_semantics unitExt ⟨[("gender", .string "nonbinary")]⟩ "gender"
      [("male", [.text "He"]), ("other", [.text "They"])]).2.2 "nonbinary" rfl).2.1
      [.text "They"] rfl,
    ((C4_select_semantics unitExt ⟨[("gender", .string "nonbinary")]⟩ "gender"
      [("male", [.text "He"])]).2.2 "nonbinary" rfl).2.2 rfl⟩

/-- Claim C7: every element kind that references a parameter with no
binding — bare parameter, plural, select, and number — makes formatting
fail with `MissingParameter` carrying that parameter's name. -/
theorem C7_missing_parameter {V D : Type} (ext : NumberExt V D) (params : Parameters)
    (name : String) (hmiss : params.get name = none) :
    formatter.format_message ext params [.parameter name] = .error (.missingParameter name)
    ∧ (∀ cases, formatter.format_message ext params [.plural name cases] =
        .error (.missingParameter name))
    ∧ (∀ cases, formatter.format_message ext params [.select name cases] =
        .error (.missingParameter name))
    ∧ (∀ ft, formatter.format_message ext params [.number name ft] =
        .error (.missingParameter name)) := by
  refine ⟨?_, fun cases => ?_, fun cases => ?_, fun ft => ?_⟩ <;>
    (rw [formatter.format_message]; simp [hmiss])

/-- Concrete instantiation of C7: with an empty binding set, each of the
four referencing element kinds fails with `MissingParameter "x"`. -/
theorem C7_missing_parameter_witness :
    formatter.format_message unitExt ⟨[]⟩ [.parameter "x"] =
      .error (.missingParameter "x")
    ∧ formatter.format_message unitExt ⟨[]⟩ [.plural "x" [(.other, [.text "a"])]] =
      .error (.missingParameter "x")
    ∧ formatter.format_message unitExt ⟨[]⟩ [.select "x" [("other", [.text "a"])]] =
      .error (.missingParameter "x")
    ∧ formatter.format_message unitExt ⟨[]⟩ [.number "x" .number] =
      .error (.missingParameter "x") :=
  ⟨(C7_missing_parameter unitExt ⟨[]⟩ "x" rfl).1,
    (C7_missing_parameter unitExt ⟨[]⟩ "x" rfl).2.1 [(.other, [.text "a"])],
    (C7_missing_parameter unitExt ⟨[]⟩ "x" rfl).2.2.1 [("other", [.text "a"])],
    (C7_missing_parameter unitExt ⟨[]⟩ "x" rfl).2.2.2 .number⟩

theorem hasDuplicateKey_eq_false_iff (pairs : List (String × ParameterValue)) :
    hasDuplicateKey pairs = false ↔ (pairs.map Prod.fst).Nodup := by
  induction pairs with
  | nil => simp [hasDuplicateKey]
  | cons c rest ih =>
      obtain ⟨k, v⟩ := c
      simp [hasDuplicateKey, List.nodup_cons, ih, List.any_eq_false, List.mem_map]
      intro _
      constructor
      · intro h1 x hx
        exact h1 k x hx rfl
      · intro h1 a b hmem hab
        subst hab
        exact h1 b hmem

theorem get_of_mem_nodup (pairs : List (String × ParameterValue)) (k : String)
    (v : ParameterValue) (hmem : (k, v) ∈ pairs) (hnd : (pairs.map Prod.fst).Nodup) :
    (Parameters.mk pairs).get k = some v := by
  induction pairs with
  | nil => cases hmem
  | cons c rest ih =>
      obtain ⟨k', v'⟩ := c
      simp only [List.map_cons, List.nodup_cons, List.mem_map] at hnd
      rcases List.mem_cons.mp hmem with heq | hmem'
      · cases heq
        simp [Parameters.get, List.find?]
      · by_cases hk : k' = k
        · subst hk
          exact absurd ⟨(k', v), hmem', rfl⟩ hnd.1
        · have := ih hmem' hnd.2
          simp only [Parameters.get, List.find?] at this ⊢
          simp [hk, this]

/-- Claim C9: constructing a binding set from pairs with pairwise-distinct
names succeeds and preserves every pair for lookup, while any duplicate
name aborts construction fatally (the Rust `panic!`, modelled as the
absence of a constructed value) rather than returning an error value. -/
theorem C9_from_slice_duplicates (pairs : List (String × ParameterValue)) :
    ((pairs.map Prod.fst).Nodup →
      Parameters.from_slice pairs = some ⟨pairs⟩
      ∧ ∀ k v, (k, v) ∈ pairs → (Parameters.mk pairs).get k = some v)
    ∧ (¬ (pairs.map Prod.fst).Nodup → Parameters.from_slice pairs = none) := by
  constructor
  · intro hnd
    refine ⟨?_, fun k v hmem => get_of_mem_nodup pairs k v hmem hnd⟩
    rw [Parameters.from_slice]
    simp [(hasDuplicateKey_eq_false_iff pairs).mpr hnd]
  · intro hdup
    rw [Parameters.from_slice]
    have : hasDuplicateKey pairs = true := by
      rcases Bool.eq_false_or_eq_true (hasDuplicateKey pairs) with h | h
      · exact h
      · exact absurd ((hasDuplicateKey_eq_false_iff pairs).mp h) hdup
    simp [this]

/-- Concrete instantiation of C9: three distinct names construct and all
three look up, while repeating the name `name` aborts. -/
theorem C9_from_slice_duplicates_witness :
    Parameters.from_slice [("name", .string "Alice"), ("age", .number 25)] =
      some ⟨[("name", .string "Alice"), ("age", .number 25)]⟩
    ∧ (Parameters.mk [("name", .string "Alice"), ("age", .number 25)]).get "age" =
      some (.number 25)
    ∧ Parameters.from_slice
        [("name", .string "Alice"), ("age", .number 25), ("name", .string "Bob")] = none := by
  refine ⟨(C9_from_slice_duplicates [("name", .string "Alice"), ("age", .number 25)]).1
      (by decide) |>.1,
    (C9_from_slice_duplicates [("name", .string "Alice"), ("age", .number 25)]).1
      (by decide) |>.2 "age" (.number 25) (by decide),
    (C9_from_slice_duplicates
      [("name", .string "Alice"), ("age", .number 25), ("name", .string "Bob")]).2
      (by decide)⟩

theorem format_number_currency_bad_shape {V D : Type} (ext : NumberExt V D) (v : V)
    (code : String) (hshape : (code.length == 3 && code.data.all Char.isAlpha) = false) :
    ∃ msg, formatter.format_number ext v (.currency code) =
      .error (.invalidParameterType msg) := by
  cases hc : ext.currency_try_new with
  | none => exact ⟨"currency", by simp [formatter.format_number, hc]⟩
  | some u =>
      cases hf : ext.to_fixed v with
      | none => exact ⟨"currency", by simp [formatter.format_number, hc, hf]⟩
      | some d =>
          exact ⟨"Currency code must be 3 ASCII letters: " ++ code,
            by simp [formatter.format_number, hc, hf, hshape]⟩

/-- Claim C6: parsing a `currency` keyword with no `/CODE` suffix yields
`Currency("USD")`; at formatting time a currency format succeeds only when
the code is exactly three ASCII letters, it is accepted case-insensitively
(only the uppercased code reaches the external currency formatter), and
any other code shape fails with `InvalidParameterType`. -/
theorem C6_currency_code {V D : Type} (ext : NumberExt V D) (v : V) (code : String) :
    parser.parse_message "\x7bprice, number, currency\x7d".data =
      some ([], [.number "price" (.currency "USD")])
    ∧ (∀ s, formatter.format_number ext v (.currency code) = .ok s →
        (code.length == 3 && code.data.all Char.isAlpha) = true)
    ∧ ((code.length == 3 && code.data.all Char.isAlpha) = false →
        ∃ msg, formatter.format_number ext v (.currency code) =
          .error (.invalidParameterType msg))
    ∧ (∀ code2 : String, (code.length == 3 && code.data.all Char.isAlpha) = true →
        (code2.length == 3 && code2.data.all Char.isAlpha) = true →
        formatter.ascii_upper code = formatter.ascii_upper code2 →
        formatter.format_number ext v (.currency code) =
          formatter.format_number ext v (.currency code2)) := by
  refine ⟨rfl, ?_, format_number_currency_bad_shape ext v code, ?_⟩
  · intro s h
    by_cases hs : (code.length == 3 && code.data.all Char.isAlpha) = true
    · exact hs
    · obtain ⟨msg, hmsg⟩ := format_number_currency_bad_shape ext v code
        (Bool.not_eq_true _ ▸ hs)
      rw [hmsg] at h
      cases h
  · intro code2 hs1 hs2 hup
    cases hc : ext.currency_try_new <;> cases hf : ext.to_fixed v <;>
      simp [formatter.format_number, hc, hf, hs1, hs2, hup]

/-- Concrete instantiation of C6: `usd` passes the shape check and is
normalized to the same formatting call as `USD`, while `US1` (a digit in
the code) fails with `InvalidParameterType`. -/
theorem C6_currency_code_witness :
    ("usd".length == 3 && "usd".data.all Char.isAlpha) = true
    ∧ formatter.format_number unitExt () (.currency "usd") =
        formatter.format_number unitExt () (.currency "USD")
    ∧ ("US1".length == 3 && "US1".data.all Char.isAlpha) = false
    ∧ formatter.format_number unitExt () (.currency "US1") =
        .error (.invalidParameterType "Currency code must be 3 ASCII letters: US1") :=
  ⟨by decide,
    (C6_currency_code unitExt () "usd").2.2.2 "USD" (by decide) (by decide) (by decide),
    by decide, rfl⟩

theorem pmany0_isSome {α : Type} (p : Parser α) (n : Nat) (input : List Char) :
    (pmany0 p n input).isSome = true := by
  induction n generalizing input with
  | zero => simp [pmany0]
  | succ n ih =>
      rw [pmany0]
      cases hp : p input with
      | none => simp [hp]
      | some r =>
          obtain ⟨rest, a⟩ := r
          cases hr : pmany0 p n rest with
          | none => have := ih rest; rw [hr] at this; cases this
          | some r2 =>
              obtain ⟨rest2, xs⟩ := r2
              simp [hp, hr]

/-- Counterexample to claim C1: on the input `Hello {name`, whose brace
construct is unterminated, `parse_message` succeeds, leaving the residue
`{name` unconsumed and returning the `Message` built from the consumed
prefix, and the library `format` entry point formats that prefix rather
than failing. -/
theorem C1_counterexample :
    parser.parse_message "Hello \x7bname".data = some ("\x7bname".data, [.text "Hello "])
    ∧ format unitExt "Hello \x7bname" ⟨[("name", .string "x")]⟩ = .ok "Hello " := by
  have hp : parser.parse_message "Hello \x7bname".data =
      some ("\x7bname".data, [.text "Hello "]) := rfl
  refine ⟨hp, ?_⟩
  unfold format
  rw [hp]
  simp [formatter.format_message]

/-- Claim C1 as amended: `parse_message` never returns a parse failure —
on every input it succeeds, returning the message parsed from the
consumed prefix together with the unconsumed residue — and the library
`format` entry point formats whatever message the parser returned,
ignoring the residue. -/
theorem C1_parse_always_succeeds :
    (∀ input : List Char, (parser.parse_message input).isSome = true)
    ∧ (∀ (input : String) {V D : Type} (ext : NumberExt V D) (params : Parameters)
        (rest : List Char) (msg : Message),
        parser.parse_message input.data = some (rest, msg) →
        format ext input params =
          match formatter.format_message ext params msg with
          | .error e => .error (.formatError e)
          | .ok s => .ok s) := by
  constructor
  · intro input
    exact pmany0_isSome _ _ input
  · intro input V D ext params rest msg hp
    unfold format
    rw [hp]

/-- Concrete instantiation of the amended C1: `Hi {x` parses successfully
(with residue) and `format` renders the consumed prefix `Hi `. -/
theorem C1_parse_always_succeeds_witness :
    (parser.parse_message "Hi \x7bx".data).isSome = true
    ∧ format unitExt "Hi \x7bx" ⟨[]⟩ = .ok "Hi " := by
  refine ⟨C1_parse_always_succeeds.1 "Hi \x7bx".data, ?_⟩
  have h := C1_parse_always_succeeds.2 "Hi \x7bx" unitExt ⟨[]⟩ "\x7bx".data [.text "Hi "] rfl
  rw [h]
  simp [formatter.format_message]

theorem pchar_none_of_head (c : Char) (input : List Char) (h : input.head? ≠ some c) :
    pchar c input = none := by
  cases input with
  | nil => rfl
  | cons d rest =>
      have hd : d ≠ c := by simpa using h
      simp [pchar, hd]

namespace parser

theorem construct_head_none (kw : List Char) (input : List Char)
    (h : input.head? ≠ some '{') : construct_head kw input = none := by
  simp [construct_head, pchar_none_of_head '{' input h]

theorem number_expression_none (input : List Char) (h : input.head? ≠ some '{') :
    number_expression input = none := by
  simp [number_expression, construct_head_none _ input h]

theorem simple_parameter_none (input : List Char) (h : input.head? ≠ some '{') :
    simple_parameter input = none := by
  simp [simple_parameter, pchar_none_of_head '{' input h]

theorem select_expression_none (fuel : Nat) (input : List Char)
    (h : input.head? ≠ some '{') : select_expression fuel input = none := by
  cases fuel with
  | zero => simp [select_expression, grammar]
  | succ n =>
      simp [select_expression, grammar, select_expression_with,
        construct_head_none _ input h]

theorem plural_expression_none (fuel : Nat) (input : List Char)
    (h : input.head? ≠ some '{') : plural_expression fuel input = none := by
  cases fuel with
  | zero => simp [plural_expression, grammar]
  | succ n =>
      simp [plural_expression, grammar, plural_expression_with,
        construct_head_none _ input h]

end parser

theorem takeWhile_eq_self_of_all {p : Char → Bool} {l : List Char}
    (h : ∀ c ∈ l, p c = true) : l.takeWhile p = l := by
  induction l with
  | nil => rfl
  | cons c rest ih =>
      rw [List.takeWhile_cons]
      simp [h c (List.mem_cons_self c rest), ih (fun d hd => h d (List.mem_cons_of_mem c hd))]

theorem dropWhile_eq_nil_of_all {p : Char → Bool} {l : List Char}
    (h : ∀ c ∈ l, p c = true) : l.dropWhile p = [] := by
  induction l with
  | nil => rfl
  | cons c rest ih =>
      rw [List.dropWhile_cons]
      simp [h c (List.mem_cons_self c rest), ih (fun d hd => h d (List.mem_cons_of_mem c hd))]

namespace parser

theorem ptakeWhile1_all {p : Char → Bool} (input : List Char) (hne : input ≠ [])
    (h : ∀ c ∈ input, p c = true) : ptakeWhile1 p input = some ([], input) := by
  have ht := takeWhile_eq_self_of_all h
  have hd := dropWhile_eq_nil_of_all h
  rw [ptakeWhile1, ht, hd]
  cases input with
  | nil => exact absurd rfl hne
  | cons c rest => rfl

theorem text_segment_all (input : List Char) (hne : input ≠ [])
    (hall : ∀ c ∈ input, c ≠ '{') :
    text_segment input = some ([], .text (String.mk input)) := by
  have hp : ∀ c ∈ input, (decide (c ≠ '{')) = true := by
    intro c hc; simpa using hall c hc
  rw [text_segment, ptakeWhile1_all input hne hp]
  rfl

theorem message_element_nil_none (fuel : Nat) : message_element fuel [] = none := by
  have h : (([] : List Char)).head? ≠ some '{' := by simp
  simp [message_element, number_expression_none [] h, select_expression_none fuel [] h,
    plural_expression_none fuel [] h, simple_parameter_none [] h, text_segment, ptakeWhile1]

theorem message_element_text (fuel : Nat) (input : List Char) (hne : input ≠ [])
    (hall : ∀ c ∈ input, c ≠ '{') :
    message_element fuel input = some ([], .text (String.mk input)) := by
  have hh : input.head? ≠ some '{' := by
    cases input with
    | nil => simp
    | cons c rest =>
        simp only [List.head?_cons, ne_eq, Option.some.injEq]
        exact hall c (List.mem_cons_self c rest)
  simp [message_element, number_expression_none input hh, select_expression_none fuel input hh,
    plural_expression_none fuel input hh, simple_parameter_none input hh,
    text_segment_all input hne hall]

theorem pmany0_nil_of_none {α : Type} (p : Parser α) (n : Nat) (h : p [] = none) :
    pmany0 p n [] = some ([], []) := by
  cases n with
  | zero => rfl
  | succ m => simp [pmany0, h]

theorem parse_message_text_only (input : List Char) (hne : input ≠ [])
    (hall : ∀ c ∈ input, c ≠ '{') :
    parse_message input = some ([], [.text (String.mk input)]) := by
  cases input with
  | nil => exact absurd rfl hne
  | cons c rest =>
      have h1 := message_element_text ((c :: rest).length + 1) (c :: rest) (by simp) hall
      have h2 := pmany0_nil_of_none (message_element ((c :: rest).length + 1))
        ((c :: rest).length) (message_element_nil_none _)
      simp only [List.length_cons] at h1 h2
      simp [parse_message, pmany0, h1, h2, message_element_nil_none]

end parser

/-- Counterexample to claim C5: the empty string contains no `{`, yet
`parse_message` returns a message with zero elements rather than exactly
one `Text` element equal to the input. -/
theorem C5_counterexample :
    parser.parse_message "".data = some ([], ([] : Message))
    ∧ ([] : Message).length = 0 :=
  ⟨rfl, rfl⟩

/-- Claim C5 as amended: for every nonempty string containing no `{`,
parsing yields exactly one `Text` element whose content is the input, and
formatting that message with any binding set and external collaborators
returns the input unchanged. -/
theorem C5_text_roundtrip {V D : Type} (ext : NumberExt V D) (params : Parameters)
    (s : String) (hne : s ≠ "") (hall : ∀ c ∈ s.data, c ≠ '{') :
    parser.parse_message s.data = some ([], [.text s])
    ∧ formatter.format_message ext params [.text s] = .ok s := by
  have hdne : s.data ≠ [] := by
    intro hd
    exact hne (by cases s with | mk l => cases hd; rfl)
  constructor
  · have := parser.parse_message_text_only s.data hdne hall
    simpa using this
  · rw [formatter.format_message]
    simp [formatter.format_message]

/-- Concrete instantiation of the amended C5 on `Hello world`. -/
theorem C5_text_roundtrip_witness :
    parser.parse_message "Hello world".data = some ([], [.text "Hello world"])
    ∧ formatter.format_message unitExt ⟨[]⟩ [.text "Hello world"] = .ok "Hello world" :=
  C5_text_roundtrip unitExt ⟨[]⟩ "Hello world" (by decide) (by decide)

theorem takeWhile_append_of_all {p : Char → Bool} (tok next : List Char)
    (htok : ∀ c ∈ tok, p c = true) (hstop : ∀ c, next.head? = some c → p c = false) :
    (tok ++ next).takeWhile p = tok ∧ (tok ++ next).dropWhile p = next := by
  induction tok with
  | nil =>
      simp only [List.nil_append]
      cases next with
      | nil => simp
      | cons c rest => simp [List.takeWhile_cons, List.dropWhile_cons, hstop c rfl]
  | cons c tok ih =>
      have hc := htok c (List.mem_cons_self c tok)
      have ih2 := ih (fun d hd => htok d (List.mem_cons_of_mem c hd))
      simp [List.takeWhile_cons, List.dropWhile_cons, hc, ih2.1, ih2.2]

theorem ptakeWhile1_append {p : Char → Bool} (tok next : List Char) (hne : tok ≠ [])
    (htok : ∀ c ∈ tok, p c = true) (hstop : ∀ c, next.head? = some c → p c = false) :
    ptakeWhile1 p (tok ++ next) = some (next, tok) := by
  obtain ⟨ht, hd⟩ := takeWhile_append_of_all tok next htok hstop
  rw [ptakeWhile1, ht, hd]
  cases tok with
  | nil => exact absurd rfl hne
  | cons c rest => rfl

/-- Claim C8: a plural-case selector token that is neither one of the six
category keywords nor a parseable decimal integer does not make the parser
fail — `PluralSelector::parse` returns `None`, the `plural_selector`
parser consumes the token and falls back to `Other`, and a template with
such a selector still parses successfully. -/
theorem C8_selector_fallback_to_other (tok next : List Char) (hne : tok ≠ [])
    (halnum : ∀ c ∈ tok, c.isAlphanum = true)
    (hstop : ∀ c, next.head? = some c → c.isAlphanum = false)
    (hkw : String.mk tok ≠ "zero" ∧ String.mk tok ≠ "one" ∧ String.mk tok ≠ "two" ∧
      String.mk tok ≠ "few" ∧ String.mk tok ≠ "many" ∧ String.mk tok ≠ "other")
    (hint : parseI64 (String.mk tok) = none) :
    PluralSelector.parse (String.mk tok) = none
    ∧ parser.plural_selector (tok ++ next) = some (next, .other)
    ∧ parser.parse_message "\x7bn, plural, abc\x7bx\x7d\x7d".data =
        some ([], [.plural "n" [(.other, [.text "x"])]]) := by
  obtain ⟨h1, h2, h3, h4, h5, h6⟩ := hkw
  have hparse : PluralSelector.parse (String.mk tok) = none := by
    rw [PluralSelector.parse]
    simp [h1, h2, h3, h4, h5, h6, hint]
  refine ⟨hparse, ?_, rfl⟩
  rw [parser.plural_selector]
  rw [ptakeWhile1_append tok next hne halnum hstop]
  simp [hparse]

/-- Concrete instantiation of C8: the selector token `abc` followed by a
case body brace is consumed and becomes `Other`. -/
theorem C8_selector_fallback_to_other_witness :
    PluralSelector.parse "abc" = none
    ∧ parser.plural_selector ("abc".data ++ ['{']) = some (['{'], .other) :=
  ⟨(C8_selector_fallback_to_other "abc".data ['{'] (by decide) (by decide)
      (by intro c hc; cases hc; decide) (by decide) (by decide)).1,
    (C8_selector_fallback_to_other "abc".data ['{'] (by decide) (by decide)
      (by intro c hc; cases hc; decide) (by decide) (by decide)).2.1⟩

theorem msg_nonneg_of_forall (xs : Message) (h : ∀ e ∈ xs, elem_nonneg e = true) :
    msg_nonneg xs = true := by
  induction xs with
  | nil => rfl
  | cons e rest ih =>
      rw [msg_nonneg]
      simp [h e (List.mem_cons_self e rest), ih (fun d hd => h d (List.mem_cons_of_mem e hd))]

theorem plural_cases_nonneg_of_forall (cs : List (PluralSelector × Message))
    (h : ∀ c ∈ cs, selector_nonneg c.1 = true ∧ msg_nonneg c.2 = true) :
    plural_cases_nonneg cs = true := by
  induction cs with
  | nil => rfl
  | cons c rest ih =>
      obtain ⟨sel, m⟩ := c
      rw [plural_cases_nonneg]
      have hc := h (sel, m) (List.mem_cons_self _ rest)
      simp [hc.1, hc.2, ih (fun d hd => h d (List.mem_cons_of_mem _ hd))]

theorem select_cases_nonneg_of_forall (cs : List (String × Message))
    (h : ∀ c ∈ cs, msg_nonneg c.2 = true) :
    select_cases_nonneg cs = true := by
  induction cs with
  | nil => rfl
  | cons c rest ih =>
      obtain ⟨sel, m⟩ := c
      rw [select_cases_nonneg]
      have hc := h (sel, m) (List.mem_cons_self _ rest)
      simp [hc, ih (fun d hd => h d (List.mem_cons_of_mem _ hd))]

theorem parseSignedDigits_nonneg (cs : List Char) (n : Int)
    (h1 : cs.head? ≠ some '+') (h2 : cs.head? ≠ some '-')
    (hp : parseSignedDigits cs = some n) : 0 ≤ n := by
  cases cs with
  | nil => simp [parseSignedDigits] at hp
  | cons c ds =>
      have hc1 : c ≠ '+' := by intro h; rw [h] at h1; simp at h1
      have hc2 : c ≠ '-' := by intro h; rw [h] at h2; simp at h2
      rw [parseSignedDigits] at hp
      simp only [hc1, hc2, if_false] at hp
      split at hp
      · cases hp
        exact Int.ofNat_nonneg _
      · cases hp

theorem parseI64_nonneg (s : String) (n : Int)
    (halnum : ∀ c ∈ s.data, c.isAlphanum = true)
    (hp : parseI64 s = some n) : 0 ≤ n := by
  rw [parseI64] at hp
  split at hp
  · next m hm =>
      split at hp
      · cases hp
        refine parseSignedDigits_nonneg s.data n ?_ ?_ hm
        · intro hh
          cases hd : s.data with
          | nil => rw [hd] at hh; cases hh
          | cons c rest =>
              rw [hd] at hh
              simp at hh
              have := halnum c (by rw [hd]; exact List.mem_cons_self c rest)
              rw [hh] at this
              cases this
        · intro hh
          cases hd : s.data with
          | nil => rw [hd] at hh; cases hh
          | cons c rest =>
              rw [hd] at hh
              simp at hh
              have := halnum c (by rw [hd]; exact List.mem_cons_self c rest)
              rw [hh] at this
              cases this
      · cases hp
  · cases hp

theorem PluralSelector_parse_getD_nonneg (s : String)
    (halnum : ∀ c ∈ s.data, c.isAlphanum = true) :
    selector_nonneg ((PluralSelector.parse s).getD .other) = true := by
  rw [PluralSelector.parse]
  split_ifs <;> try rfl
  split
  · next n hn =>
      simp only [Option.getD_some]
      rw [selector_nonneg]
      simpa using parseI64_nonneg s n halnum hn
  · rfl

theorem plural_selector_nonneg (input rest : List Char) (sel : PluralSelector)
    (h : parser.plural_selector input = some (rest, sel)) : selector_nonneg sel = true := by
  rw [parser.plural_selector] at h
  rw [ptakeWhile1] at h
  split at h
  · cases h
  · next c cs heq =>
      simp only [Option.bind_eq_some] at h
      obtain hsel : sel = (PluralSelector.parse (String.mk (c :: cs))).getD .other := by
        cases h; rfl
      subst hsel
      refine PluralSelector_parse_getD_nonneg _ ?_
      intro d hd
      have : d ∈ input.takeWhile Char.isAlphanum := by rw [heq]; exact hd
      exact List.mem_takeWhile_imp this


theorem text_segment_shape (input rest : List Char) (e : MessageElement)
    (h : parser.text_segment input = some (rest, e)) : elem_nonneg e = true := by
  simp only [parser.text_segment] at h
  cases hx : ptakeWhile1 (fun c => decide (c ≠ '{')) input with
  | none => rw [hx] at h; simp at h
  | some a =>
      obtain ⟨r, tok⟩ := a
      rw [hx] at h
      simp at h
      obtain ⟨h1, h2⟩ := h
      rw [← h2]
      rfl

theorem option_do_bind_eq_some {α β : Type} (o : Option α) (f : α → Option β) (b : β) :
    (o >>= f) = some b ↔ ∃ a, o = some a ∧ f a = some b := by
  cases o <;> simp

theorem pmany0_all {α : Type} (p : Parser α) (Q : α → Prop)
    (hp : ∀ input rest a, p input = some (rest, a) → Q a) :
    ∀ (n : Nat) (input rest : List Char) (xs : List α),
      pmany0 p n input = some (rest, xs) → ∀ a ∈ xs, Q a := by
  intro n
  induction n with
  | zero =>
      intro input rest xs h a ha
      rw [pmany0] at h
      cases h
      cases ha
  | succ m ih =>
      intro input rest xs h a ha
      rw [pmany0] at h
      cases hp1 : p input with
      | none =>
          simp only [hp1] at h
          cases h
          cases ha
      | some r1 =>
          obtain ⟨rst, b⟩ := r1
          simp only [hp1] at h
          cases hp2 : pmany0 p m rst with
          | none => simp only [hp2] at h; cases h
          | some r2 =>
              obtain ⟨rst2, ys⟩ := r2
              simp only [hp2] at h
              cases h
              rcases List.mem_cons.mp ha with rfl | hmem
              · exact hp input rst a hp1
              · exact ih rst _ ys hp2 a hmem

theorem pmany1_all {α : Type} (p : Parser α) (Q : α → Prop)
    (hp : ∀ input rest a, p input = some (rest, a) → Q a)
    (fuel : Nat) (input rest : List Char) (xs : List α)
    (h : pmany1 p fuel input = some (rest, xs)) : ∀ a ∈ xs, Q a := by
  rw [pmany1] at h
  cases hp1 : p input with
  | none => simp only [hp1] at h; cases h
  | some r1 =>
      obtain ⟨rst, b⟩ := r1
      simp only [hp1] at h
      cases hp2 : pmany0 p fuel rst with
      | none => simp only [hp2] at h; cases h
      | some r2 =>
          obtain ⟨rst2, ys⟩ := r2
          simp only [hp2] at h
          cases h
          intro a ha
          rcases List.mem_cons.mp ha with rfl | hmem
          · exact hp input rst a hp1
          · exact pmany0_all p Q hp fuel rst _ ys hp2 a hmem

namespace parser

theorem simple_parameter_shape (input rest : List Char) (e : MessageElement)
    (h : simple_parameter input = some (rest, e)) : elem_nonneg e = true := by
  simp only [simple_parameter, option_do_bind_eq_some] at h
  obtain ⟨⟨r1, c1⟩, h1, ⟨r2, u2⟩, h2, ⟨r3, nm⟩, h3, ⟨r4, u4⟩, h4, ⟨r5, c5⟩, h5, h6⟩ := h
  cases h6
  rfl

theorem text_segment_in_case_shape (input rest : List Char) (e : MessageElement)
    (h : text_segment_in_case input = some (rest, e)) : elem_nonneg e = true := by
  simp only [text_segment_in_case, option_do_bind_eq_some] at h
  obtain ⟨⟨r1, tok⟩, h1, h2⟩ := h
  cases h2
  rfl

theorem number_expression_shape2 (input rest : List Char) (e : MessageElement)
    (h : number_expression input = some (rest, e)) : elem_nonneg e = true := by
  simp only [number_expression, option_do_bind_eq_some] at h
  obtain ⟨hh, h1, r9, h2, h3⟩ := h
  cases h3
  rfl

theorem construct_cases_inv {α : Type} (pc : Parser α) (input rest : List Char) (xs : List α)
    (h : construct_cases pc input = some (rest, xs)) :
    ∃ i r, pmany1 pc (i.length + 1) i = some (r, xs) := by
  simp only [construct_cases, option_do_bind_eq_some] at h
  obtain ⟨s8, h8, s9, h9, s10, h10, s11, h11, s12, h12, s13, h13, hfin⟩ := h
  cases hfin
  exact ⟨s10.1, s11.1, h11⟩

theorem plural_expression_with_nonneg (pc : Parser (PluralSelector × Message))
    (hpc : ∀ input rest c, pc input = some (rest, c) →
      selector_nonneg c.1 = true ∧ msg_nonneg c.2 = true)
    (input rest : List Char) (e : MessageElement)
    (h : plural_expression_with pc input = some (rest, e)) : elem_nonneg e = true := by
  simp only [plural_expression_with, option_do_bind_eq_some] at h
  obtain ⟨hh, h1, t, h2, hfin⟩ := h
  cases hfin
  obtain ⟨i, r, hm⟩ := construct_cases_inv pc hh.1 t.1 t.2 h2
  have hall := pmany1_all pc _ hpc (i.length + 1) i r t.2 hm
  rw [elem_nonneg]
  exact plural_cases_nonneg_of_forall t.2 hall

theorem select_expression_with_nonneg (sc : Parser (String × Message))
    (hsc : ∀ input rest c, sc input = some (rest, c) → msg_nonneg c.2 = true)
    (input rest : List Char) (e : MessageElement)
    (h : select_expression_with sc input = some (rest, e)) : elem_nonneg e = true := by
  simp only [select_expression_with, option_do_bind_eq_some] at h
  obtain ⟨hh, h1, t, h2, hfin⟩ := h
  cases hfin
  obtain ⟨i, r, hm⟩ := construct_cases_inv sc hh.1 t.1 t.2 h2
  have hall := pmany1_all sc _ hsc (i.length + 1) i r t.2 hm
  rw [elem_nonneg]
  exact select_cases_nonneg_of_forall t.2 hall

theorem case_content_with_nonneg (el : Parser MessageElement)
    (hel : ∀ input rest e, el input = some (rest, e) → elem_nonneg e = true)
    (input rest : List Char) (m : Message)
    (h : case_content_with el input = some (rest, m)) : msg_nonneg m = true := by
  simp only [case_content_with, option_do_bind_eq_some] at h
  obtain ⟨⟨r1, c1⟩, h1, ⟨r2, elems⟩, h2, ⟨r3, c3⟩, h3, hfin⟩ := h
  cases hfin
  exact msg_nonneg_of_forall elems (pmany0_all el _ hel (r1.length + 1) r1 r2 elems h2)

theorem plural_case_with_nonneg (cc : Parser Message)
    (hcc : ∀ input rest m, cc input = some (rest, m) → msg_nonneg m = true)
    (input rest : List Char) (c : PluralSelector × Message)
    (h : plural_case_with cc input = some (rest, c)) :
    selector_nonneg c.1 = true ∧ msg_nonneg c.2 = true := by
  simp only [plural_case_with, option_do_bind_eq_some] at h
  obtain ⟨⟨r1, u1⟩, h1, ⟨r2, sel⟩, h2, ⟨r3, u3⟩, h3, ⟨r4, msg⟩, h4, hfin⟩ := h
  cases hfin
  exact ⟨plural_selector_nonneg r1 r2 sel h2, hcc r3 r4 msg h4⟩

theorem select_case_with_nonneg (cc : Parser Message)
    (hcc : ∀ input rest m, cc input = some (rest, m) → msg_nonneg m = true)
    (input rest : List Char) (c : String × Message)
    (h : select_case_with cc input = some (rest, c)) : msg_nonneg c.2 = true := by
  simp only [select_case_with, option_do_bind_eq_some] at h
  obtain ⟨⟨r1, u1⟩, h1, ⟨r2, sel⟩, h2, ⟨r3, u3⟩, h3, ⟨r4, msg⟩, h4, hfin⟩ := h
  cases hfin
  exact hcc r3 r4 msg h4

theorem case_element_with_nonneg (sel pl : Parser MessageElement)
    (hsel : ∀ input rest e, sel input = some (rest, e) → elem_nonneg e = true)
    (hpl : ∀ input rest e, pl input = some (rest, e) → elem_nonneg e = true)
    (input rest : List Char) (e : MessageElement)
    (h : case_element_with sel pl input = some (rest, e)) : elem_nonneg e = true := by
  rw [case_element_with] at h
  cases h1 : number_expression input with
  | some r => rw [h1] at h; cases h; exact number_expression_shape2 input rest e h1
  | none =>
  rw [h1] at h
  cases h2 : sel input with
  | some r => rw [h2] at h; cases h; exact hsel input rest e h2
  | none =>
  rw [h2] at h
  cases h3 : pl input with
  | some r => rw [h3] at h; cases h; exact hpl input rest e h3
  | none =>
  rw [h3] at h
  cases h4 : simple_parameter input with
  | some r => rw [h4] at h; cases h; exact simple_parameter_shape input rest e h4
  | none =>
  rw [h4] at h
  exact text_segment_in_case_shape input rest e h

end parser

namespace parser

theorem grammar_nonneg (fuel : Nat) :
    (∀ input rest m, (grammar fuel).caseContentP input = some (rest, m) →
      msg_nonneg m = true)
    ∧ (∀ input rest e, (grammar fuel).caseElementP input = some (rest, e) →
      elem_nonneg e = true)
    ∧ (∀ input rest c, (grammar fuel).pluralCaseP input = some (rest, c) →
      selector_nonneg c.1 = true ∧ msg_nonneg c.2 = true)
    ∧ (∀ input rest c, (grammar fuel).selectCaseP input = some (rest, c) →
      msg_nonneg c.2 = true)
    ∧ (∀ input rest e, (grammar fuel).pluralExpressionP input = some (rest, e) →
      elem_nonneg e = true)
    ∧ (∀ input rest e, (grammar fuel).selectExpressionP input = some (rest, e) →
      elem_nonneg e = true) := by
  induction fuel with
  | zero =>
      refine ⟨?_, ?_, ?_, ?_, ?_, ?_⟩ <;> (intro input rest x h; simp [grammar] at h)
  | succ n ih =>
      obtain ⟨ihc, ihe, ihp, ihs, ihpe, ihse⟩ := ih
      refine ⟨?_, ?_, ?_, ?_, ?_, ?_⟩
      · intro input rest m h
        exact case_content_with_nonneg (grammar n).caseElementP ihe input rest m h
      · intro input rest e h
        exact case_element_with_nonneg (grammar n).selectExpressionP
          (grammar n).pluralExpressionP ihse ihpe input rest e h
      · intro input rest c h
        exact plural_case_with_nonneg (grammar n).caseContentP ihc input rest c h
      · intro input rest c h
        exact select_case_with_nonneg (grammar n).caseContentP ihc input rest c h
      · intro input rest e h
        exact plural_expression_with_nonneg (grammar n).pluralCaseP ihp input rest e h
      · intro input rest e h
        exact select_expression_with_nonneg (grammar n).selectCaseP ihs input rest e h

theorem text_segment_shape2 (input rest : List Char) (e : MessageElement)
    (h : text_segment input = some (rest, e)) : elem_nonneg e = true := by
  simp only [text_segment, option_do_bind_eq_some] at h
  obtain ⟨⟨r1, tok⟩, h1, h2⟩ := h
  cases h2
  rfl

theorem message_element_nonneg (fuel : Nat) (input rest : List Char) (e : MessageElement)
    (h : message_element fuel input = some (rest, e)) : elem_nonneg e = true := by
  rw [message_element] at h
  cases h1 : number_expression input with
  | some r => rw [h1] at h; cases h; exact number_expression_shape2 input rest e h1
  | none =>
  rw [h1] at h
  cases h2 : select_expression fuel input with
  | some r =>
      rw [h2] at h; cases h
      exact (grammar_nonneg fuel).2.2.2.2.2 input rest e h2
  | none =>
  rw [h2] at h
  cases h3 : plural_expression fuel input with
  | some r =>
      rw [h3] at h; cases h
      exact (grammar_nonneg fuel).2.2.2.2.1 input rest e h3
  | none =>
  rw [h3] at h
  cases h4 : simple_parameter input with
  | some r => rw [h4] at h; cases h; exact simple_parameter_shape input rest e h4
  | none =>
  rw [h4] at h
  exact text_segment_shape2 input rest e h

end parser

/-- Claim C10: every `Exact(n)` plural selector in any message produced by
the parser satisfies `n ≥ 0` — selector tokens are taken from alphanumeric
characters only, so a minus sign can never be part of a selector. -/
theorem C10_no_negative_exact_selector (input rest : List Char) (msg : Message)
    (h : parser.parse_message input = some (rest, msg)) : msg_nonneg msg = true := by
  rw [parser.parse_message] at h
  exact msg_nonneg_of_forall msg
    (pmany0_all (parser.message_element (input.length + 1)) _
      (parser.message_element_nonneg (input.length + 1)) (input.length + 1) input rest msg h)

/-- Concrete instantiation of C10: the parsed template
`{n, plural, 5{x} other{y}}` contains only nonnegative exact selectors. -/
theorem C10_no_negative_exact_selector_witness :
    msg_nonneg [.plural "n" [(.exact 5, [.text "x"]), (.other, [.text "y"])]] = true :=
  C10_no_negative_exact_selector "\x7bn, plural, 5\x7bx\x7d other\x7by\x7d\x7d".data []
    [.plural "n" [(.exact 5, [.text "x"]), (.other, [.text "y"])]] rfl
